import Mathlib

/-!
Verification of the remote-fancontrol core control logic.

The definitions below are a shallow embedding of the Python sources:
  src/remote_fancontrol/server/fan_controller.py   (class FanController)
  src/amdgpu_fancontrol/server/fan_controller.py   (class FanController; the
    interpolate_pwm, set_failsafe_speed, set_initial_speed bodies and the
    hysteresis condition are textually identical to the remote variant)
  src/remote_fancontrol/client/temperature_monitor.py (class TemperatureMonitor)
  src/remote_fancontrol/common/config.py           (dataclass FanControlConfig)

Conventions of the embedding:
  - Python int is Int (arbitrary precision in both).
  - Python floor division `//` is Int.fdiv (Python `//` always floors).
  - Python list indexing TEMPS[i] is List.getD i 0; TEMPS[-1] is
    List.getD (TEMPS.length - 1) 0.  The safety theorem for interpolate_pwm
    shows every index the code consults is in range on valid configurations,
    so the getD default is never the value used.
  - `int(p * 255 / 100)` in Python computes a correctly rounded double
    quotient and truncates it toward zero.  For p : Nat, p ≤ 100, the
    numerator p * 255 ≤ 25500 is exact in double precision and the exact
    quotient is a multiple of 1/100, so the rounded quotient is within
    3e-12 of the exact value and never crosses an integer boundary; the
    truncation therefore equals Nat floor division (p * 255) / 100, which is
    how it is embedded.
  - Hardware writes, dict mutation and logging are made explicit: a
    processing step returns the successor history together with the list of
    hardware actions it performs, in order.  Logging calls are omitted (the
    processed_gpus set in handle_client only affects debug logging).
-/

namespace RemoteFancontrol

/-- The fields of common/config.py FanControlConfig that the control logic
reads.  __post_init__ validates len(TEMPS) == len(PWMS) and the two percent
fields in 0..100; those validations are carried as hypotheses where needed. -/
structure FanControlConfig where
  TEMPS : List Int
  PWMS : List Int
  HYSTERESIS : Int
  FAILSAFE_FAN_PERCENT : Nat
  INITIAL_FAN_PERCENT : Nat
deriving Repr

/-- The value the interpolate_pwm search loop returns when it stops at
index i: `PWMS[i-1] + (temp - TEMPS[i-1]) * (PWMS[i] - PWMS[i-1]) //
(TEMPS[i] - TEMPS[i-1])` (Python `//` floors, hence Int.fdiv). -/
def segValue (TEMPS PWMS : List Int) (temp : Int) (i : Nat) : Int :=
  PWMS.getD (i - 1) 0 +
    Int.fdiv ((temp - TEMPS.getD (i - 1) 0) * (PWMS.getD i 0 - PWMS.getD (i - 1) 0))
      (TEMPS.getD i 0 - TEMPS.getD (i - 1) 0)

/-- The `for i in range(1, len(TEMPS))` search loop of
FanController.interpolate_pwm, entered at index i: if `temp <= TEMPS[i]`
return the interpolated value, otherwise continue with i+1; when the loop
runs out, the trailing `return PWMS[-1]`. -/
def interpolateFrom (TEMPS PWMS : List Int) (temp : Int) (i : Nat) : Int :=
  if i < TEMPS.length then
    if temp ≤ TEMPS.getD i 0 then
      segValue TEMPS PWMS temp i
    else
      interpolateFrom TEMPS PWMS temp (i + 1)
  else
    PWMS.getD (PWMS.length - 1) 0
termination_by TEMPS.length - i

/-- FanController.interpolate_pwm (identical in both server variants):
clamp below TEMPS[0] to PWMS[0], at or above TEMPS[-1] to PWMS[-1], otherwise
search from index 1. -/
def interpolate_pwm (cfg : FanControlConfig) (temp : Int) : Int :=
  if temp ≤ cfg.TEMPS.getD 0 0 then
    cfg.PWMS.getD 0 0
  else if cfg.TEMPS.getD (cfg.TEMPS.length - 1) 0 ≤ temp then
    cfg.PWMS.getD (cfg.PWMS.length - 1) 0
  else
    interpolateFrom cfg.TEMPS cfg.PWMS temp 1

/-- The per-session actuation history self.temp_at_last_change: a map from
reference-sensor identifier to the temperature at the last actuation. -/
def History : Type := String → Option Int

/-- The empty history ({} at FanController construction). -/
def emptyHistory : History := fun _ => none

/-- The should_update condition of handle_client:
`ref_gpu not in self.temp_at_last_change or temp >
self.temp_at_last_change[ref_gpu] or temp + self.config.HYSTERESIS <=
self.temp_at_last_change[ref_gpu]`. -/
def should_update (hist : History) (hysteresis : Int) (refGpu : String) (temp : Int) : Bool :=
  match hist refGpu with
  | none => true
  | some last => decide (last < temp) || decide (temp + hysteresis ≤ last)

/-- One entry of self.fans in the remote variant: the fan identifier (dict
key) and its reference_gpu field (paths.get("reference_gpu", fan_id), so it
defaults to the fan's own id).  The pwm/mode Path objects are external
collaborators and are represented by the actions written to them. -/
structure Fan where
  id : String
  referenceGpu : String
deriving Repr, DecidableEq

/-- A hardware access performed by the controller, in program order.
setPwm is a write to the fan's pwm attribute, setMode to its mode attribute
(1 = manual, 2 = automatic), readPwm the pwm read in the non-update branch,
sleep1 the 1-second asyncio.sleep between failsafe retries. -/
inductive Action where
  | setMode (gpuId : String) (mode : Int)
  | setPwm (gpuId : String) (pwm : Int)
  | readPwm (gpuId : String)
  | sleep1
deriving Repr, DecidableEq

/-- The value `int(self.config.FAILSAFE_FAN_PERCENT * 255 / 100)` as computed by
set_failsafe_speed and set_failsafe_with_retry (see the header note on why
Nat floor division models the Python float truncation exactly). -/
def failsafe_pwm (cfg : FanControlConfig) : Nat :=
  cfg.FAILSAFE_FAN_PERCENT * 255 / 100

/-- The value `int(self.config.INITIAL_FAN_PERCENT * 255 / 100)` as computed by
set_initial_speed. -/
def initial_pwm (cfg : FanControlConfig) : Nat :=
  cfg.INITIAL_FAN_PERCENT * 255 / 100

/-- FanController.set_failsafe_speed for one fan: a single pwm write attempt
(an IOError is caught, logged and not retried). -/
def set_failsafe_speed (cfg : FanControlConfig) (gpuId : String) : List Action :=
  [Action.setPwm gpuId (failsafe_pwm cfg)]

/-- FanController.set_failsafe_with_retry for one fan, given the number of
initial attempts whose pwm write raises IOError: the loop rewrites the same
failsafe value after a 1-second sleep until a write succeeds, so a run with
k transient failures performs k failed writes, k sleeps, and one final
successful write. -/
def set_failsafe_with_retry (cfg : FanControlConfig) (gpuId : String) : Nat → List Action
  | 0 => [Action.setPwm gpuId (failsafe_pwm cfg)]
  | k + 1 =>
      Action.setPwm gpuId (failsafe_pwm cfg) :: Action.sleep1 ::
        set_failsafe_with_retry cfg gpuId k

/-- The body of the per-fan loop in handle_client (remote variant), for one
fan:
  - skip when the reference GPU is absent from the report or null
    (`if ref_gpu not in temps or temps[ref_gpu] is None: continue`;
    the two cases are collapsed into Option.none);
  - if should_update: interpolate, write the pwm, record
    `self.temp_at_last_change[ref_gpu] = temp`;
  - else: read the current pwm (for logging) and leave the history alone. -/
def processFan (cfg : FanControlConfig) (hist : History) (temps : String → Option Int)
    (fan : Fan) : History × List Action :=
  match temps fan.referenceGpu with
  | none => (hist, [])
  | some temp =>
      if should_update hist cfg.HYSTERESIS fan.referenceGpu temp then
        (fun r => if r = fan.referenceGpu then some temp else hist r,
         [Action.setPwm fan.id (interpolate_pwm cfg temp)])
      else
        (hist, [Action.readPwm fan.id])

/-- The loop `for fan_id, fan_info in self.fans.items(): ...` of handle_client:
process each fan in order, threading the history. -/
def processReport (cfg : FanControlConfig) (fans : List Fan) (hist : History)
    (temps : String → Option Int) : History × List Action :=
  match fans with
  | [] => (hist, [])
  | fan :: rest =>
      let step := processFan cfg hist temps fan
      let next := processReport cfg rest step.1 temps
      (next.1, step.2 ++ next.2)

/-- A line received by handle_client, classified by how
`json.loads(data.decode())` and the subsequent `message["temperatures"]`
behave on it: invalidJson raises json.JSONDecodeError, missingTemperatures
parses but has no "temperatures" key (KeyError), report carries the
temperatures mapping. -/
inductive InboundLine where
  | invalidJson
  | missingTemperatures
  | report (temps : String → Option Int)

/-- Outcome of handling one line inside the read loop: either the loop
continues with a (possibly updated) history after performing some hardware
actions, or an exception escapes the read loop and the session terminates. -/
inductive StepOutcome where
  | continueSession (hist : History) (acts : List Action)
  | sessionError (hist : History)

/-- Observer: does the outcome keep the session in its read loop? -/
def sessionContinues : StepOutcome → Bool
  | StepOutcome.continueSession _ _ => true
  | StepOutcome.sessionError _ => false

/-- Handling of one received line by handle_client: the inner
`try: ... except json.JSONDecodeError` catches only unparseable JSON (the
line is logged and dropped, the loop continues unchanged); a KeyError from
`message["temperatures"]` is caught by no handler in handle_client and
terminates the read loop; a well-formed report is processed fan by fan. -/
def handleLine (cfg : FanControlConfig) (fans : List Fan) (hist : History)
    (line : InboundLine) : StepOutcome :=
  match line with
  | InboundLine.invalidJson => StepOutcome.continueSession hist []
  | InboundLine.missingTemperatures => StepOutcome.sessionError hist
  | InboundLine.report temps =>
      let res := processReport cfg fans hist temps
      StepOutcome.continueSession res.1 res.2

/-- The history reset performed at the top of handle_client when a
connection is accepted:
  `for gpu_id in self.fans: if gpu_id in self.temp_at_last_change:
     del self.temp_at_last_change[gpu_id]`
i.e. exactly the keys that are fan identifiers are deleted from the shared
instance map; keys that are not fan identifiers survive. -/
def acceptReset (fans : List Fan) (hist : History) : History :=
  fun r => if (fans.map Fan.id).contains r then none else hist r

/-- A call made by the shutdown/close paths, at the granularity the C5 claim
talks about: restoring a fan mode, the single-attempt failsafe write of
set_failsafe_speed, or the retrying set_failsafe_with_retry. -/
inductive CleanupCall where
  | setFanMode (gpuId : String) (mode : Int)
  | failsafeOnce (gpuId : String)
  | failsafeRetry (gpuId : String)
deriving Repr, DecidableEq

/-- The calls handle_client makes when its read loop ends, in order.
cancelled = true is the asyncio.CancelledError path: the except block sets
every fan's mode to 2 and re-raises; cancelled = false is the end-of-stream
path (readline returned b""), which runs no except block.  In both cases the
finally block then calls set_failsafe_speed (the non-retrying write) on
every fan.  handle_client never calls set_failsafe_with_retry. -/
def handle_client_close (fans : List Fan) (cancelled : Bool) : List CleanupCall :=
  (if cancelled then fans.map (fun f => CleanupCall.setFanMode f.id 2) else []) ++
    fans.map (fun f => CleanupCall.failsafeOnce f.id)

/-- FanController.cleanup, run at process shutdown: set every fan's mode to
2, then set_failsafe_with_retry for every fan (as concurrently gathered
tasks; listed here in creation order). -/
def cleanup (fans : List Fan) : List CleanupCall :=
  fans.map (fun f => CleanupCall.setFanMode f.id 2) ++
    fans.map (fun f => CleanupCall.failsafeRetry f.id)

/-- TemperatureMonitor.connect, parameterized by which attempt numbers
(1-based) would succeed in opening the connection, and by fuel bounding the
number of iterations so the function is total: returns none when fuel runs
out before a success, otherwise the successful attempt number, the list of
sleeps performed (min 30 attempt after each failed attempt, in order), and
whether total_reconnects was incremented (exactly when the successful
attempt number exceeds 1). -/
def connect_go (succeeds : Nat → Bool) (attempt : Nat) : Nat → Option (Nat × List Nat × Bool)
  | 0 => none
  | fuel + 1 =>
      let attempt := attempt + 1
      if succeeds attempt then
        some (attempt, [], decide (1 < attempt))
      else
        match connect_go succeeds attempt fuel with
        | none => none
        | some (k, delays, inc) => some (k, min 30 attempt :: delays, inc)

/-- TemperatureMonitor.connect starts with attempt = 0 and increments at
the top of the loop. -/
def connect (succeeds : Nat → Bool) (fuel : Nat) : Option (Nat × List Nat × Bool) :=
  connect_go succeeds 0 fuel

/-- Observer: is this action a write to a pwm attribute? -/
def isPwmWrite : Action → Bool
  | Action.setPwm _ _ => true
  | _ => false

/-- Number of pwm writes among a list of hardware actions. -/
def pwmWriteCount (acts : List Action) : Nat :=
  acts.countP isPwmWrite

/-- The duty-cycle computation as the spec words it, for comparison with
the code: `round(percent * 255 / 100)`, rounded to the nearest integer
(written here as round-half-up, which agrees with every rounding mode at
non-tie points). -/
def round_pwm_of_spec (p : Nat) : Nat :=
  (p * 255 + 50) / 100

/-- The default server curve [(35000,0),(55000,100),(80000,153),(90000,255)]
from common/config.py, with its default hysteresis 6000 and failsafe/initial
percentages 80/0. -/
def exampleConfig : FanControlConfig :=
  ⟨[35000, 55000, 80000, 90000], [0, 100, 153, 255], 6000, 80, 0⟩

/-- The default curve with the hysteresis margin set to 0 (the
configuration surface does not constrain `hysteresis` to be positive). -/
def zeroHysteresisConfig : FanControlConfig :=
  ⟨[35000, 55000, 80000, 90000], [0, 100, 153, 255], 0, 80, 0⟩

/-- A report carrying a single reading: gpu0 at 45 degrees. -/
def reportGpu0 : String → Option Int :=
  fun r => if r = "gpu0" then some 45000 else none

/-- A history as left behind by an earlier connection whose fan fan0 was
driven by reference GPU gpu0: the entry is keyed by the reference id. -/
def staleHistory : History :=
  fun r => if r = "gpu0" then some 60000 else none

/-- The hysteresis-window invariant used to analyse repeated reports: the
history entry for reference id r is within the window [t, t + H) of the
report's reading t of r (whenever that reading is present). -/
def Stable (H : Int) (temps : String → Option Int) (h : History) (r : String) : Prop :=
  ∀ t, temps r = some t → ∃ v, h r = some v ∧ t ≤ v ∧ v < t + H

/-! ### Arithmetic and list-access helper lemmas -/

/-- Floor division by a positive integer is monotone in the dividend. -/
theorem fdiv_mono_left {a b c : Int} (hc : 0 < c) (hab : a ≤ b) :
    a.fdiv c ≤ b.fdiv c := by
  rw [Int.fdiv_eq_ediv a hc.le, Int.fdiv_eq_ediv b hc.le]
  exact Int.ediv_le_ediv hc hab

/-- Indexing a strictly ascending list is strictly monotone, via getD. -/
theorem getD_lt_getD {l : List Int} (h : List.Pairwise (· < ·) l) {i j : Nat}
    (hij : i < j) (hj : j < l.length) : l.getD i 0 < l.getD j 0 := by
  rw [List.getD_eq_getElem l 0 (lt_trans hij hj), List.getD_eq_getElem l 0 hj]
  exact List.pairwise_iff_getElem.mp h i j (lt_trans hij hj) hj hij

/-- Indexing a non-decreasing list is monotone, via getD. -/
theorem getD_le_getD {l : List Int} (h : List.Pairwise (· ≤ ·) l) {i j : Nat}
    (hij : i ≤ j) (hj : j < l.length) : l.getD i 0 ≤ l.getD j 0 := by
  rcases Nat.eq_or_lt_of_le hij with rfl | hlt
  · exact le_refl _
  · rw [List.getD_eq_getElem l 0 (lt_trans hlt hj), List.getD_eq_getElem l 0 hj]
    exact List.pairwise_iff_getElem.mp h i j (lt_trans hlt hj) hj hlt

/-- One interpolation segment is monotone in the temperature, provided the
segment is proper (tLo < tHi) and its duty range is non-negative. -/
theorem seg_formula_mono {tLo tHi dLo dHi t1 t2 : Int} (ht : tLo < tHi) (hd : dLo ≤ dHi)
    (h12 : t1 ≤ t2) :
    dLo + Int.fdiv ((t1 - tLo) * (dHi - dLo)) (tHi - tLo) ≤
      dLo + Int.fdiv ((t2 - tLo) * (dHi - dLo)) (tHi - tLo) := by
  have hΔ : (0 : Int) < tHi - tLo := sub_pos.mpr ht
  have hd0 : (0 : Int) ≤ dHi - dLo := sub_nonneg.mpr hd
  have hnum : (t1 - tLo) * (dHi - dLo) ≤ (t2 - tLo) * (dHi - dLo) :=
    mul_le_mul_of_nonneg_right (by omega) hd0
  exact add_le_add_left (fdiv_mono_left hΔ hnum) dLo

/-- One interpolation segment never drops below its low duty value for
temperatures at or above the segment's low temperature. -/
theorem seg_formula_lower {tLo tHi dLo dHi t : Int} (ht : tLo < tHi) (hd : dLo ≤ dHi)
    (hlo : tLo ≤ t) :
    dLo ≤ dLo + Int.fdiv ((t - tLo) * (dHi - dLo)) (tHi - tLo) := by
  have hΔ : (0 : Int) < tHi - tLo := sub_pos.mpr ht
  have hnum : (0 : Int) ≤ (t - tLo) * (dHi - dLo) :=
    mul_nonneg (by omega) (sub_nonneg.mpr hd)
  have := Int.fdiv_nonneg hnum hΔ.le
  omega

/-- One interpolation segment never exceeds its high duty value for
temperatures at or below the segment's high temperature. -/
theorem seg_formula_upper {tLo tHi dLo dHi t : Int} (ht : tLo < tHi) (hd : dLo ≤ dHi)
    (hhi : t ≤ tHi) :
    dLo + Int.fdiv ((t - tLo) * (dHi - dLo)) (tHi - tLo) ≤ dHi := by
  have hΔ : (0 : Int) < tHi - tLo := sub_pos.mpr ht
  have hnum : (t - tLo) * (dHi - dLo) ≤ (tHi - tLo) * (dHi - dLo) :=
    mul_le_mul_of_nonneg_right (by omega) (sub_nonneg.mpr hd)
  have hcancel : ((tHi - tLo) * (dHi - dLo)).fdiv (tHi - tLo) = dHi - dLo :=
    Int.mul_fdiv_cancel_left (dHi - dLo) hΔ.ne.symm
  have := fdiv_mono_left hΔ hnum
  omega

/-- At the segment's high temperature the interpolated value is exactly the
high duty value (the division is exact). -/
theorem seg_formula_at_hi {tLo tHi dLo dHi : Int} (ht : tLo < tHi) :
    dLo + Int.fdiv ((tHi - tLo) * (dHi - dLo)) (tHi - tLo) = dHi := by
  have hΔ : (0 : Int) < tHi - tLo := sub_pos.mpr ht
  rw [Int.mul_fdiv_cancel_left (dHi - dLo) hΔ.ne.symm]
  ring

/-! ### Lemmas about the interpolate_pwm search loop -/

/-- Unfolding equation: the loop stops when `temp <= TEMPS[i]`. -/
theorem interpolateFrom_hit {TEMPS PWMS : List Int} {temp : Int} {s : Nat}
    (hs : s < TEMPS.length) (h : temp ≤ TEMPS.getD s 0) :
    interpolateFrom TEMPS PWMS temp s = segValue TEMPS PWMS temp s := by
  rw [interpolateFrom, if_pos hs, if_pos h]

/-- Unfolding equation: the loop advances when `temp > TEMPS[i]`. -/
theorem interpolateFrom_miss {TEMPS PWMS : List Int} {temp : Int} {s : Nat}
    (hs : s < TEMPS.length) (h : ¬ temp ≤ TEMPS.getD s 0) :
    interpolateFrom TEMPS PWMS temp s = interpolateFrom TEMPS PWMS temp (s + 1) := by
  rw [interpolateFrom, if_pos hs, if_neg h]

/-- Unfolding equation: the exhausted loop falls through to `return
PWMS[-1]`. -/
theorem interpolateFrom_out {TEMPS PWMS : List Int} {temp : Int} {s : Nat}
    (hs : ¬ s < TEMPS.length) :
    interpolateFrom TEMPS PWMS temp s = PWMS.getD (PWMS.length - 1) 0 := by
  rw [interpolateFrom, if_neg hs]

/-- If i (with s ≤ i < length) is the first index at or after s whose
threshold is at or above temp, the search loop entered at s stops at i and
returns the segment-i value.  The fuel k with i = s + k drives the
induction. -/
theorem interpolateFrom_stops {TEMPS PWMS : List Int} {temp : Int} {i : Nat}
    (hi : i < TEMPS.length) (hle : temp ≤ TEMPS.getD i 0) :
    ∀ k s, i = s + k → (∀ j, s ≤ j → j < i → TEMPS.getD j 0 < temp) →
      interpolateFrom TEMPS PWMS temp s = segValue TEMPS PWMS temp i := by
  intro k
  induction k with
  | zero =>
      intro s hs _
      obtain rfl : s = i := by omega
      rw [interpolateFrom, if_pos hi, if_pos hle]
  | succ k ih =>
      intro s hs hprev
      have hsi : s < i := by omega
      have hslen : s < TEMPS.length := lt_trans hsi hi
      have hTs : TEMPS.getD s 0 < temp := hprev s le_rfl hsi
      rw [interpolateFrom, if_pos hslen, if_neg (not_le.mpr hTs)]
      exact ih (s + 1) (by omega) (fun j hj1 hj2 => hprev j (by omega) hj2)

/-- Entered at an index s ≥ 1 whose previous threshold is strictly below
temp, the search loop never returns less than PWMS[s-1] (thresholds strictly
ascending, duties non-decreasing, lists of equal length). -/
theorem interpolateFrom_lower {TEMPS PWMS : List Int} {temp : Int}
    (hlen : TEMPS.length = PWMS.length)
    (hT : List.Pairwise (· < ·) TEMPS) (hP : List.Pairwise (· ≤ ·) PWMS) :
    ∀ k s, TEMPS.length ≤ s + k → 1 ≤ s → s ≤ TEMPS.length →
      TEMPS.getD (s - 1) 0 < temp →
      PWMS.getD (s - 1) 0 ≤ interpolateFrom TEMPS PWMS temp s := by
  intro k
  induction k with
  | zero =>
      intro s hk hs1 hsn _
      rw [interpolateFrom, if_neg (by omega)]
      exact getD_le_getD hP (by omega) (by omega)
  | succ k ih =>
      intro s hk hs1 hsn hlt
      by_cases hslen : s < TEMPS.length
      · rw [interpolateFrom, if_pos hslen]
        by_cases hle : temp ≤ TEMPS.getD s 0
        · rw [if_pos hle]
          exact seg_formula_lower (getD_lt_getD hT (by omega) hslen)
            (getD_le_getD hP (by omega) (by omega)) hlt.le
        · rw [if_neg hle]
          have hstep : TEMPS.getD (s + 1 - 1) 0 < temp := by
            simpa using not_le.mp hle
          have hrec := ih (s + 1) (by omega) (by omega) (by omega) hstep
          simp only [Nat.add_sub_cancel] at hrec
          exact le_trans (getD_le_getD hP (by omega) (by omega)) hrec
      · rw [interpolateFrom, if_neg hslen]
        exact getD_le_getD hP (by omega) (by omega)

/-- Entered at an index s ≥ 1, the search loop never returns more than the
last duty value PWMS[-1]. -/
theorem interpolateFrom_upper {TEMPS PWMS : List Int} {temp : Int}
    (hlen : TEMPS.length = PWMS.length)
    (hT : List.Pairwise (· < ·) TEMPS) (hP : List.Pairwise (· ≤ ·) PWMS) :
    ∀ k s, TEMPS.length ≤ s + k → 1 ≤ s →
      interpolateFrom TEMPS PWMS temp s ≤ PWMS.getD (PWMS.length - 1) 0 := by
  intro k
  induction k with
  | zero =>
      intro s hk hs1
      rw [interpolateFrom, if_neg (by omega)]
  | succ k ih =>
      intro s hk hs1
      by_cases hslen : s < TEMPS.length
      · rw [interpolateFrom, if_pos hslen]
        by_cases hle : temp ≤ TEMPS.getD s 0
        · rw [if_pos hle]
          refine le_trans (seg_formula_upper (getD_lt_getD hT (by omega) hslen)
            (getD_le_getD hP (by omega) (by omega)) hle) ?_
          exact getD_le_getD hP (by omega) (by omega)
        · rw [if_neg hle]
          exact ih (s + 1) (by omega) (by omega)
      · rw [interpolateFrom, if_neg hslen]

/-- The search loop is monotone in the temperature: entered at the same
index s ≥ 1 with both temperatures strictly above the previous threshold,
a smaller temperature never yields a larger duty value. -/
theorem interpolateFrom_mono {TEMPS PWMS : List Int} {t1 t2 : Int}
    (hlen : TEMPS.length = PWMS.length)
    (hT : List.Pairwise (· < ·) TEMPS) (hP : List.Pairwise (· ≤ ·) PWMS) :
    ∀ k s, TEMPS.length ≤ s + k → 1 ≤ s →
      TEMPS.getD (s - 1) 0 < t1 → t1 ≤ t2 →
      interpolateFrom TEMPS PWMS t1 s ≤ interpolateFrom TEMPS PWMS t2 s := by
  intro k
  induction k with
  | zero =>
      intro s hk hs1 _ _
      rw [interpolateFrom, if_neg (by omega), interpolateFrom, if_neg (by omega)]
  | succ k ih =>
      intro s hk hs1 hlt h12
      by_cases hslen : s < TEMPS.length
      · have htlo : TEMPS.getD (s - 1) 0 < TEMPS.getD s 0 :=
          getD_lt_getD hT (by omega) hslen
        have hdle : PWMS.getD (s - 1) 0 ≤ PWMS.getD s 0 :=
          getD_le_getD hP (by omega) (by omega)
        by_cases h1le : t1 ≤ TEMPS.getD s 0
        · by_cases h2le : t2 ≤ TEMPS.getD s 0
          · rw [interpolateFrom_hit hslen h1le, interpolateFrom_hit hslen h2le]
            exact seg_formula_mono htlo hdle h12
          · rw [interpolateFrom_hit hslen h1le, interpolateFrom_miss hslen h2le]
            have hup : segValue TEMPS PWMS t1 s ≤ PWMS.getD s 0 :=
              seg_formula_upper htlo hdle h1le
            have hstep : TEMPS.getD (s + 1 - 1) 0 < t2 := by
              simpa using not_le.mp h2le
            have hlo2 := interpolateFrom_lower hlen hT hP k (s + 1) (by omega)
              (by omega) (by omega) hstep
            simp only [Nat.add_sub_cancel] at hlo2
            exact le_trans hup hlo2
        · have h2le : ¬ t2 ≤ TEMPS.getD s 0 := by
            push_neg at h1le ⊢
            omega
          rw [interpolateFrom_miss hslen h1le, interpolateFrom_miss hslen h2le]
          have hstep : TEMPS.getD (s + 1 - 1) 0 < t1 := by
            simpa using not_le.mp h1le
          exact ih (s + 1) (by omega) (by omega) hstep h12
      · rw [interpolateFrom_out hslen, interpolateFrom_out hslen]

/-- Indexing a strictly ascending list is (non-strictly) monotone. -/
theorem getD_le_of_sorted_lt {l : List Int} (h : List.Pairwise (· < ·) l) {i j : Nat}
    (hij : i ≤ j) (hj : j < l.length) : l.getD i 0 ≤ l.getD j 0 := by
  rcases Nat.eq_or_lt_of_le hij with rfl | hlt
  · exact le_refl _
  · exact (getD_lt_getD h hlt hj).le

/-- The `temp <= TEMPS[0]` clamp branch of interpolate_pwm. -/
theorem interpolate_pwm_low (cfg : FanControlConfig) {temp : Int}
    (h : temp ≤ cfg.TEMPS.getD 0 0) :
    interpolate_pwm cfg temp = cfg.PWMS.getD 0 0 := by
  unfold interpolate_pwm
  rw [if_pos h]

/-- The `temp >= TEMPS[-1]` clamp branch of interpolate_pwm (on a valid
configuration the first branch, if it also applies, returns the same
value because the curve then has a single breakpoint). -/
theorem interpolate_pwm_high (cfg : FanControlConfig) (hne : cfg.TEMPS ≠ [])
    (hlen : cfg.TEMPS.length = cfg.PWMS.length)
    (hsort : List.Pairwise (· < ·) cfg.TEMPS) {temp : Int}
    (h : cfg.TEMPS.getD (cfg.TEMPS.length - 1) 0 ≤ temp) :
    interpolate_pwm cfg temp = cfg.PWMS.getD (cfg.PWMS.length - 1) 0 := by
  have hlen0 : 0 < cfg.TEMPS.length := List.length_pos.mpr hne
  by_cases h0 : temp ≤ cfg.TEMPS.getD 0 0
  · unfold interpolate_pwm
    rw [if_pos h0]
    have hlen1 : cfg.TEMPS.length = 1 := by
      by_contra hne1
      have hlt := getD_lt_getD hsort (show 0 < cfg.TEMPS.length - 1 by omega) (by omega)
      omega
    rw [show cfg.PWMS.length - 1 = 0 by omega]
  · unfold interpolate_pwm
    rw [if_neg h0, if_pos h]

/-- The interior of interpolate_pwm: when TEMPS[i-1] < temp <= TEMPS[i]
with 1 <= i < n (i.e. i is the smallest index with temp <= TEMPS[i] and the
low clamp does not apply), the result is the segment-i interpolation. -/
theorem interpolate_pwm_interior (cfg : FanControlConfig)
    (hlen : cfg.TEMPS.length = cfg.PWMS.length)
    (hsort : List.Pairwise (· < ·) cfg.TEMPS) {temp : Int} {i : Nat}
    (hi1 : 1 ≤ i) (hilen : i < cfg.TEMPS.length)
    (hlo : cfg.TEMPS.getD (i - 1) 0 < temp) (hhi : temp ≤ cfg.TEMPS.getD i 0) :
    interpolate_pwm cfg temp = segValue cfg.TEMPS cfg.PWMS temp i := by
  have h0 : ¬ temp ≤ cfg.TEMPS.getD 0 0 := by
    have h00 : cfg.TEMPS.getD 0 0 ≤ cfg.TEMPS.getD (i - 1) 0 :=
      getD_le_of_sorted_lt hsort (by omega) (by omega)
    omega
  by_cases hlast : cfg.TEMPS.getD (cfg.TEMPS.length - 1) 0 ≤ temp
  · -- only possible at the last breakpoint with temp exactly on it
    have hieq : i = cfg.TEMPS.length - 1 := by
      by_contra hne2
      have hlt := getD_lt_getD hsort (show i < cfg.TEMPS.length - 1 by omega) (by omega)
      omega
    have hteq : temp = cfg.TEMPS.getD i 0 := by
      rw [hieq] at hhi ⊢
      omega
    unfold interpolate_pwm
    rw [if_neg h0, if_pos hlast]
    unfold segValue
    rw [hteq, seg_formula_at_hi (getD_lt_getD hsort (by omega) hilen)]
    rw [show cfg.PWMS.length - 1 = i by omega]
  · unfold interpolate_pwm
    rw [if_neg h0, if_neg hlast]
    refine interpolateFrom_stops hilen hhi (i - 1) 1 (by omega) ?_
    intro j hj1 hj2
    have hj3 : cfg.TEMPS.getD j 0 ≤ cfg.TEMPS.getD (i - 1) 0 :=
      getD_le_of_sorted_lt hsort (by omega) (by omega)
    omega

/-- C1: for every curve configuration with non-empty, equal-length,
strictly-ascending TEMPS and duty list PWMS, interpolate_pwm returns
PWMS[0] at or below TEMPS[0], PWMS[n-1] at or above TEMPS[n-1], and
otherwise, at the smallest i with temp <= TEMPS[i] (equivalently
TEMPS[i-1] < temp <= TEMPS[i] with i >= 1), exactly
PWMS[i-1] + floor((temp - TEMPS[i-1]) * (PWMS[i] - PWMS[i-1]) /
(TEMPS[i] - TEMPS[i-1])); on the default breakpoints
interpolate_pwm(45000) = 50; a single-breakpoint curve always returns its
single duty value. -/
theorem interpolate_pwm_matches_spec_formula (cfg : FanControlConfig)
    (hne : cfg.TEMPS ≠ []) (hlen : cfg.TEMPS.length = cfg.PWMS.length)
    (hsort : List.Pairwise (· < ·) cfg.TEMPS) (temp : Int) :
    (temp ≤ cfg.TEMPS.getD 0 0 → interpolate_pwm cfg temp = cfg.PWMS.getD 0 0) ∧
    (cfg.TEMPS.getD (cfg.TEMPS.length - 1) 0 ≤ temp →
      interpolate_pwm cfg temp = cfg.PWMS.getD (cfg.PWMS.length - 1) 0) ∧
    (∀ i, 1 ≤ i → i < cfg.TEMPS.length → cfg.TEMPS.getD (i - 1) 0 < temp →
      temp ≤ cfg.TEMPS.getD i 0 →
      interpolate_pwm cfg temp =
        cfg.PWMS.getD (i - 1) 0 +
          Int.fdiv ((temp - cfg.TEMPS.getD (i - 1) 0) *
              (cfg.PWMS.getD i 0 - cfg.PWMS.getD (i - 1) 0))
            (cfg.TEMPS.getD i 0 - cfg.TEMPS.getD (i - 1) 0)) ∧
    interpolate_pwm exampleConfig 45000 = 50 ∧
    (∀ (t0 d0 hyst : Int) (fp ip : Nat) (t : Int),
      interpolate_pwm ⟨[t0], [d0], hyst, fp, ip⟩ t = d0) := by
  refine ⟨fun h => interpolate_pwm_low cfg h,
    fun h => interpolate_pwm_high cfg hne hlen hsort h,
    fun i hi1 hilen hlo hhi => interpolate_pwm_interior cfg hlen hsort hi1 hilen hlo hhi,
    ?_, ?_⟩
  · unfold exampleConfig interpolate_pwm
    rw [if_neg (by decide), if_neg (by decide),
      interpolateFrom_hit (by decide) (by decide)]
    decide
  · intro t0 d0 hyst fp ip t
    unfold interpolate_pwm
    by_cases h1 : t ≤ List.getD [t0] 0 0
    · rw [if_pos h1]
      rfl
    · rw [if_neg h1, if_pos ?_]
      · rfl
      · show List.getD [t0] ([t0].length - 1) 0 ≤ t
        simp only [List.length_singleton, Nat.sub_self]
        omega

/-- C8: for every curve with non-empty, equal-length, strictly-ascending
TEMPS and non-decreasing PWMS, interpolate_pwm is monotonically
non-decreasing in the temperature, and returns exactly PWMS[0] at or below
TEMPS[0] and exactly PWMS[n-1] at or above TEMPS[n-1]. -/
theorem interpolate_pwm_monotone (cfg : FanControlConfig)
    (hne : cfg.TEMPS ≠ []) (hlen : cfg.TEMPS.length = cfg.PWMS.length)
    (hsort : List.Pairwise (· < ·) cfg.TEMPS)
    (hmono : List.Pairwise (· ≤ ·) cfg.PWMS) :
    (∀ t1 t2 : Int, t1 ≤ t2 → interpolate_pwm cfg t1 ≤ interpolate_pwm cfg t2) ∧
    (∀ t : Int, t ≤ cfg.TEMPS.getD 0 0 → interpolate_pwm cfg t = cfg.PWMS.getD 0 0) ∧
    (∀ t : Int, cfg.TEMPS.getD (cfg.TEMPS.length - 1) 0 ≤ t →
      interpolate_pwm cfg t = cfg.PWMS.getD (cfg.PWMS.length - 1) 0) := by
  have hlen0 : 0 < cfg.TEMPS.length := List.length_pos.mpr hne
  refine ⟨?_, fun t h => interpolate_pwm_low cfg h,
    fun t h => interpolate_pwm_high cfg hne hlen hsort h⟩
  intro t1 t2 h12
  by_cases h1a : t1 ≤ cfg.TEMPS.getD 0 0
  · rw [interpolate_pwm_low cfg h1a]
    by_cases h2a : t2 ≤ cfg.TEMPS.getD 0 0
    · rw [interpolate_pwm_low cfg h2a]
    · by_cases h2b : cfg.TEMPS.getD (cfg.TEMPS.length - 1) 0 ≤ t2
      · rw [interpolate_pwm_high cfg hne hlen hsort h2b]
        exact getD_le_getD hmono (by omega) (by omega)
      · unfold interpolate_pwm
        rw [if_neg h2a, if_neg h2b]
        have hlow := interpolateFrom_lower hlen hsort hmono
          (cfg.TEMPS.length - 1) 1 (by omega) le_rfl (by omega)
          (by simpa using not_le.mp h2a)
        simpa using hlow
  · by_cases h1b : cfg.TEMPS.getD (cfg.TEMPS.length - 1) 0 ≤ t1
    · rw [interpolate_pwm_high cfg hne hlen hsort h1b,
        interpolate_pwm_high cfg hne hlen hsort (le_trans h1b h12)]
    · by_cases h2b : cfg.TEMPS.getD (cfg.TEMPS.length - 1) 0 ≤ t2
      · rw [interpolate_pwm_high cfg hne hlen hsort h2b]
        unfold interpolate_pwm
        rw [if_neg h1a, if_neg h1b]
        exact interpolateFrom_upper hlen hsort hmono
          (cfg.TEMPS.length - 1) 1 (by omega) le_rfl
      · have h2a : ¬ t2 ≤ cfg.TEMPS.getD 0 0 := by
          push_neg at h1a ⊢
          omega
        unfold interpolate_pwm
        rw [if_neg h1a, if_neg h1b, if_neg h2a, if_neg h2b]
        exact interpolateFrom_mono hlen hsort hmono
          (cfg.TEMPS.length - 1) 1 (by omega) le_rfl
          (by simpa using not_le.mp h1a) h12

/-- C10: on a valid configuration (non-empty, equal-length, strictly
ascending TEMPS), for every temp strictly between TEMPS[0] and TEMPS[-1]
the search loop stops at an in-range index i (1 <= i < n, so every list
index the code reads is in range), the divisor TEMPS[i] - TEMPS[i-1] it
divides by is strictly positive, and the value is the segment-i
interpolation — in particular the loop's guard fires before the list is
exhausted, so the trailing fallback `return PWMS[-1]` is never the branch
taken.  (Termination is inherent: interpolateFrom is a total function.) -/
theorem interpolate_pwm_safe (cfg : FanControlConfig)
    (hne : cfg.TEMPS ≠ []) (hlen : cfg.TEMPS.length = cfg.PWMS.length)
    (hsort : List.Pairwise (· < ·) cfg.TEMPS) (temp : Int)
    (h1 : cfg.TEMPS.getD 0 0 < temp)
    (h2 : temp < cfg.TEMPS.getD (cfg.TEMPS.length - 1) 0) :
    ∃ i, 1 ≤ i ∧ i < cfg.TEMPS.length ∧
      cfg.TEMPS.getD (i - 1) 0 < temp ∧ temp ≤ cfg.TEMPS.getD i 0 ∧
      0 < cfg.TEMPS.getD i 0 - cfg.TEMPS.getD (i - 1) 0 ∧
      interpolate_pwm cfg temp = segValue cfg.TEMPS cfg.PWMS temp i := by
  have hlen0 : 0 < cfg.TEMPS.length := List.length_pos.mpr hne
  have hex : ∃ i, i < cfg.TEMPS.length ∧ temp ≤ cfg.TEMPS.getD i 0 :=
    ⟨cfg.TEMPS.length - 1, by omega, h2.le⟩
  obtain ⟨hi0len, hi0le⟩ := Nat.find_spec hex
  have h1le : 1 ≤ Nat.find hex := by
    rcases Nat.eq_zero_or_pos (Nat.find hex) with h | h
    · rw [h] at hi0le
      omega
    · exact h
  have hprevlt : cfg.TEMPS.getD (Nat.find hex - 1) 0 < temp := by
    have hm := Nat.find_min hex (show Nat.find hex - 1 < Nat.find hex by omega)
    push_neg at hm
    exact hm (by omega)
  refine ⟨Nat.find hex, h1le, hi0len, hprevlt, hi0le, ?_, ?_⟩
  · have := getD_lt_getD hsort (show Nat.find hex - 1 < Nat.find hex by omega) hi0len
    omega
  · exact interpolate_pwm_interior cfg hlen hsort h1le hi0len hprevlt hi0le

/-- Witness for C1: the default configuration satisfies the hypotheses and
interpolate_pwm(45000) = 50 there. -/
theorem interpolate_pwm_matches_spec_formula_witness :
    exampleConfig.TEMPS ≠ [] ∧
      exampleConfig.TEMPS.length = exampleConfig.PWMS.length ∧
      List.Pairwise (· < ·) exampleConfig.TEMPS ∧
      interpolate_pwm exampleConfig 45000 = 50 :=
  ⟨by decide, by decide, by decide,
    (interpolate_pwm_matches_spec_formula exampleConfig (by decide) (by decide)
      (by decide) 45000).2.2.2.1⟩

/-- Witness for C8: on the default configuration (whose PWMS are
non-decreasing), interpolate_pwm at 45000 is at most interpolate_pwm at
60000. -/
theorem interpolate_pwm_monotone_witness :
    exampleConfig.TEMPS ≠ [] ∧
      exampleConfig.TEMPS.length = exampleConfig.PWMS.length ∧
      List.Pairwise (· < ·) exampleConfig.TEMPS ∧
      List.Pairwise (· ≤ ·) exampleConfig.PWMS ∧
      interpolate_pwm exampleConfig 45000 ≤ interpolate_pwm exampleConfig 60000 :=
  ⟨by decide, by decide, by decide, by decide,
    (interpolate_pwm_monotone exampleConfig (by decide) (by decide) (by decide)
      (by decide)).1 45000 60000 (by decide)⟩

/-- Witness for C10: at 45000 on the default configuration the search loop
stops at an in-range index with a positive divisor. -/
theorem interpolate_pwm_safe_witness :
    exampleConfig.TEMPS.getD 0 0 < 45000 ∧
      45000 < exampleConfig.TEMPS.getD (exampleConfig.TEMPS.length - 1) 0 ∧
      (∃ i, 1 ≤ i ∧ i < exampleConfig.TEMPS.length ∧
        exampleConfig.TEMPS.getD (i - 1) 0 < 45000 ∧
        45000 ≤ exampleConfig.TEMPS.getD i 0 ∧
        0 < exampleConfig.TEMPS.getD i 0 - exampleConfig.TEMPS.getD (i - 1) 0 ∧
        interpolate_pwm exampleConfig 45000 =
          segValue exampleConfig.TEMPS exampleConfig.PWMS 45000 i) :=
  ⟨by decide, by decide,
    interpolate_pwm_safe exampleConfig (by decide) (by decide) (by decide) 45000
      (by decide) (by decide)⟩

/-- C2: the hysteresis gate (the should_update condition of handle_client)
is true iff the reference id is absent from the history, the temperature
rose, or it fell by at least the margin; processing a fan whose reference
reading is temp stores history[ref] = temp exactly when the gate is true
and leaves the history entirely unchanged when it is false; a fresh
reference id always yields true; and with history[x] = 60000 and margin
6000, 61000 yields true, 59000 false, 53000 true. -/
theorem hysteresis_gate_correct (hist : History) (H : Int) (ref : String)
    (temp : Int) (_hH : 0 ≤ H) :
    (should_update hist H ref temp = true ↔
      hist ref = none ∨
        (∃ last, hist ref = some last ∧ (last < temp ∨ temp + H ≤ last))) ∧
    (∀ (cfg : FanControlConfig) (fan : Fan) (temps : String → Option Int),
      cfg.HYSTERESIS = H → fan.referenceGpu = ref → temps ref = some temp →
      (should_update hist H ref temp = true →
        (processFan cfg hist temps fan).1 ref = some temp) ∧
      (should_update hist H ref temp = false →
        (processFan cfg hist temps fan).1 = hist)) ∧
    (∀ (r : String) (t : Int), should_update emptyHistory H r t = true) ∧
    (should_update staleHistory 6000 "gpu0" 61000 = true ∧
      should_update staleHistory 6000 "gpu0" 59000 = false ∧
      should_update staleHistory 6000 "gpu0" 53000 = true) := by
  refine ⟨?_, ?_, ?_, by decide, by decide, by decide⟩
  · unfold should_update
    cases hhist : hist ref with
    | none => simp
    | some last => simp [hhist]
  · intro cfg fan temps hcfg hfan htemps
    constructor
    · intro hgate
      simp [processFan, hfan, htemps, hcfg, hgate]
    · intro hgate
      simp [processFan, hfan, htemps, hcfg, hgate]
  · intro r t
    unfold should_update emptyHistory
    rfl

/-- Witness for C2 at margin 6000 and the history {gpu0: 60000}. -/
theorem hysteresis_gate_correct_witness :
    (0 : Int) ≤ 6000 ∧
      (should_update staleHistory 6000 "gpu0" 61000 = true ∧
        should_update staleHistory 6000 "gpu0" 59000 = false ∧
        should_update staleHistory 6000 "gpu0" 53000 = true) :=
  ⟨by decide,
    (hysteresis_gate_correct staleHistory 6000 "gpu0" 61000 (by decide)).2.2.2⟩

/-- C3 counterexample: a line that parses as JSON but lacks the
"temperatures" key does not keep the session in its read loop — the
KeyError raised by `message["temperatures"]` is caught by no handler in
handle_client, so the session terminates on this single bad message. -/
theorem missing_field_terminates_session :
    sessionContinues (handleLine exampleConfig [⟨"fan0", "gpu0"⟩] emptyHistory
      InboundLine.missingTemperatures) = false := rfl

/-- C3 (amended): an unparseable JSON line is logged and discarded and the
session continues in its read loop with the history unchanged and no
hardware action; a line that parses but lacks the "temperatures" key
raises an uncaught KeyError and terminates the session; a well-formed
report keeps the session in its read loop. -/
theorem bad_line_handling (cfg : FanControlConfig) (fans : List Fan)
    (hist : History) :
    handleLine cfg fans hist InboundLine.invalidJson =
      StepOutcome.continueSession hist [] ∧
    sessionContinues (handleLine cfg fans hist InboundLine.invalidJson) = true ∧
    handleLine cfg fans hist InboundLine.missingTemperatures =
      StepOutcome.sessionError hist ∧
    sessionContinues
      (handleLine cfg fans hist InboundLine.missingTemperatures) = false ∧
    (∀ temps, sessionContinues
      (handleLine cfg fans hist (InboundLine.report temps)) = true) :=
  ⟨rfl, rfl, rfl, rfl, fun _ => rfl⟩

/-- C4 (code bug, evaluated at the failing input): the accept-time reset of
handle_client deletes only history keys that are fan identifiers, so after
a previous connection left {gpu0: 60000} and a new connection is accepted
for the fan set {fan0 driven by reference gpu0}, the stale entry survives
(the history is not empty) and the first reading 59000 of the new session
fails the hysteresis gate (margin 6000) instead of forcing an actuation;
processing the first report performs no pwm write. -/
theorem stale_history_survives_accept :
    acceptReset [⟨"fan0", "gpu0"⟩] staleHistory "gpu0" = some 60000 ∧
    should_update (acceptReset [⟨"fan0", "gpu0"⟩] staleHistory) 6000
      "gpu0" 59000 = false ∧
    pwmWriteCount
      ((processReport exampleConfig [⟨"fan0", "gpu0"⟩]
        (acceptReset [⟨"fan0", "gpu0"⟩] staleHistory)
        (fun r => if r = "gpu0" then some 59000 else none)).2) = 0 := by
  refine ⟨by decide, by decide, ?_⟩
  decide

/-- C5 counterexample: when a session ends by end-of-stream (not
cancellation), the closing path of handle_client neither restores
automatic mode on the actuator nor attempts the retrying failsafe write —
it only performs the single-attempt set_failsafe_speed. -/
theorem session_close_counterexample :
    CleanupCall.setFanMode "gpu0" 2 ∉ handle_client_close [⟨"gpu0", "gpu0"⟩] false ∧
    CleanupCall.failsafeRetry "gpu0" ∉ handle_client_close [⟨"gpu0", "gpu0"⟩] false ∧
    handle_client_close [⟨"gpu0", "gpu0"⟩] false =
      [CleanupCall.failsafeOnce "gpu0"] := by
  refine ⟨by decide, by decide, by decide⟩

/-- C5 (amended): when a session ends, handle_client restores automatic
mode (mode 2) on every actuator only on the cancellation path; on every
ending (end-of-stream or cancellation) it performs the single-attempt
failsafe write on every actuator; it never invokes the retrying
set_failsafe_with_retry, which is invoked — together with the mode-2
restore — on every actuator only by the process-shutdown cleanup();
set_failsafe_with_retry keeps retrying with a 1-second sleep until a write
succeeds, its trace ending in a pwm write of the failsafe value. -/
theorem session_close_behavior (cfg : FanControlConfig) (fans : List Fan)
    (cancelled : Bool) (fan : Fan) (hf : fan ∈ fans) :
    CleanupCall.failsafeOnce fan.id ∈ handle_client_close fans cancelled ∧
    (cancelled = true →
      CleanupCall.setFanMode fan.id 2 ∈ handle_client_close fans cancelled) ∧
    (∀ g, CleanupCall.failsafeRetry g ∉ handle_client_close fans cancelled) ∧
    CleanupCall.setFanMode fan.id 2 ∈ cleanup fans ∧
    CleanupCall.failsafeRetry fan.id ∈ cleanup fans ∧
    (∀ k, (set_failsafe_with_retry cfg fan.id k).getLast? =
      some (Action.setPwm fan.id (failsafe_pwm cfg))) := by
  refine ⟨?_, ?_, ?_, ?_, ?_, ?_⟩
  · simp only [handle_client_close, List.mem_append]
    exact Or.inr (List.mem_map_of_mem _ hf)
  · intro hc
    simp only [handle_client_close, hc, if_true, List.mem_append]
    exact Or.inl (List.mem_map_of_mem _ hf)
  · intro g hmem
    cases cancelled <;> simp [handle_client_close] at hmem
  · simp only [cleanup, List.mem_append]
    exact Or.inl (List.mem_map_of_mem _ hf)
  · simp only [cleanup, List.mem_append]
    exact Or.inr (List.mem_map_of_mem _ hf)
  · intro k
    induction k with
    | zero => rfl
    | succ k ih =>
        rw [set_failsafe_with_retry, List.getLast?_cons_cons]
        cases hk : set_failsafe_with_retry cfg fan.id k with
        | nil => cases k <;> simp [set_failsafe_with_retry] at hk
        | cons a l =>
            rw [← hk, ← ih]
            rw [hk, List.getLast?_cons_cons]

/-- Witness for C5 (amended) on a single-fan set with cancellation. -/
theorem session_close_behavior_witness :
    (⟨"gpu0", "gpu0"⟩ : Fan) ∈ [(⟨"gpu0", "gpu0"⟩ : Fan)] ∧
      CleanupCall.failsafeOnce "gpu0" ∈ handle_client_close [⟨"gpu0", "gpu0"⟩] true ∧
      CleanupCall.failsafeRetry "gpu0" ∈ cleanup [⟨"gpu0", "gpu0"⟩] ∧
      (set_failsafe_with_retry exampleConfig "gpu0" 2).getLast? =
        some (Action.setPwm "gpu0" (failsafe_pwm exampleConfig)) :=
  ⟨by decide,
    (session_close_behavior exampleConfig [⟨"gpu0", "gpu0"⟩] true
      ⟨"gpu0", "gpu0"⟩ (by decide)).1,
    (session_close_behavior exampleConfig [⟨"gpu0", "gpu0"⟩] true
      ⟨"gpu0", "gpu0"⟩ (by decide)).2.2.2.2.1,
    (session_close_behavior exampleConfig [⟨"gpu0", "gpu0"⟩] true
      ⟨"gpu0", "gpu0"⟩ (by decide)).2.2.2.2.2 2⟩

/-- C6 counterexample: at failsafe/initial percent 18 the code computes
int(18 * 255 / 100) = int(45.9) = 45, while rounding to the nearest
integer gives 46 — the written duty cycle is the truncation, not the
rounded value. -/
theorem duty_rounding_counterexample :
    failsafe_pwm ⟨[], [], 0, 18, 18⟩ = 45 ∧
    initial_pwm ⟨[], [], 0, 18, 18⟩ = 45 ∧
    round_pwm_of_spec 18 = 46 ∧
    failsafe_pwm ⟨[], [], 0, 18, 18⟩ ≠ round_pwm_of_spec 18 := by decide

/-- C6 (amended): the failsafe duty written by set_failsafe_speed and by
every write attempt of set_failsafe_with_retry equals
floor(failsafePercent * 255 / 100) (Python int() truncation of the
quotient), and the initial duty written by set_initial_speed equals
floor(initialPercent * 255 / 100) — not the rounded value, from which the
truncation can differ by exactly 1 (it is never above it); both stay in
0..255 for percentages in 0..100. -/
theorem failsafe_initial_duty (cfg : FanControlConfig)
    (hf : cfg.FAILSAFE_FAN_PERCENT ≤ 100) (hi : cfg.INITIAL_FAN_PERCENT ≤ 100) :
    failsafe_pwm cfg = cfg.FAILSAFE_FAN_PERCENT * 255 / 100 ∧
    initial_pwm cfg = cfg.INITIAL_FAN_PERCENT * 255 / 100 ∧
    failsafe_pwm cfg ≤ 255 ∧ initial_pwm cfg ≤ 255 ∧
    failsafe_pwm cfg ≤ round_pwm_of_spec cfg.FAILSAFE_FAN_PERCENT ∧
    round_pwm_of_spec cfg.FAILSAFE_FAN_PERCENT ≤ failsafe_pwm cfg + 1 ∧
    initial_pwm cfg ≤ round_pwm_of_spec cfg.INITIAL_FAN_PERCENT ∧
    round_pwm_of_spec cfg.INITIAL_FAN_PERCENT ≤ initial_pwm cfg + 1 ∧
    (∀ g, set_failsafe_speed cfg g = [Action.setPwm g (failsafe_pwm cfg)]) ∧
    (∀ g k a, a ∈ set_failsafe_with_retry cfg g k →
      a = Action.setPwm g (failsafe_pwm cfg) ∨ a = Action.sleep1) := by
  refine ⟨rfl, rfl, ?_, ?_, ?_, ?_, ?_, ?_, fun g => rfl, ?_⟩
  · unfold failsafe_pwm
    omega
  · unfold initial_pwm
    omega
  · unfold failsafe_pwm round_pwm_of_spec
    omega
  · unfold failsafe_pwm round_pwm_of_spec
    omega
  · unfold initial_pwm round_pwm_of_spec
    omega
  · unfold initial_pwm round_pwm_of_spec
    omega
  · intro g k a ha
    induction k with
    | zero =>
        simp only [set_failsafe_with_retry, List.mem_singleton] at ha
        exact Or.inl ha
    | succ k ih =>
        simp only [set_failsafe_with_retry, List.mem_cons] at ha
        rcases ha with h | h | h
        · exact Or.inl h
        · exact Or.inr h
        · exact ih (by simpa using h)

/-- Witness for C6 (amended) at the default percentages 80/0. -/
theorem failsafe_initial_duty_witness :
    exampleConfig.FAILSAFE_FAN_PERCENT ≤ 100 ∧
      exampleConfig.INITIAL_FAN_PERCENT ≤ 100 ∧
      failsafe_pwm exampleConfig ≤ 255 ∧
      failsafe_pwm exampleConfig ≤ round_pwm_of_spec exampleConfig.FAILSAFE_FAN_PERCENT :=
  ⟨by decide, by decide,
    (failsafe_initial_duty exampleConfig (by decide) (by decide)).2.2.1,
    (failsafe_initial_duty exampleConfig (by decide) (by decide)).2.2.2.2.1⟩

/-- Helper for C7: the connect retry loop entered after attempt number a,
when the first succeeding attempt is k (a < k ≤ a + fuel), returns attempt
k, sleeps min 30 j after each failed attempt j for j = a+1 .. k-1, and
reports a reconnect increment exactly when k > 1. -/
theorem connect_go_spec (succeeds : Nat → Bool) (k : Nat)
    (hsucc : succeeds k = true)
    (hfail : ∀ j, j < k → 1 ≤ j → succeeds j = false) :
    ∀ fuel a, a < k → k ≤ a + fuel → 1 ≤ k →
      connect_go succeeds a fuel =
        some (k, (List.range (k - 1 - a)).map (fun j => min 30 (a + j + 1)),
          decide (1 < k)) := by
  intro fuel
  induction fuel with
  | zero =>
      intro a ha hk _
      omega
  | succ fuel ih =>
      intro a ha hk hk1
      by_cases hak : a + 1 = k
      · rw [connect_go]
        simp only [hak, hsucc, if_true]
        rw [show k - 1 - a = 0 by omega]
        rfl
      · have hlt : a + 1 < k := by omega
        have hcond : ¬ (succeeds (a + 1) = true) := by
          rw [hfail (a + 1) hlt (by omega)]
          simp
        have hlist : (List.range (k - 1 - a)).map (fun j => min 30 (a + j + 1)) =
            min 30 (a + 1) ::
              (List.range (k - 1 - (a + 1))).map (fun j => min 30 (a + 1 + j + 1)) := by
          rw [show k - 1 - a = (k - 1 - (a + 1)) + 1 by omega,
            List.range_succ_eq_map, List.map_cons, List.map_map]
          simp only [Nat.add_zero]
          congr 1
          apply List.map_congr_left
          intro j _
          simp only [Function.comp_apply]
          congr 1
          omega
        rw [connect_go, if_neg hcond, ih (a + 1) hlt (by omega) hk1]
        dsimp only
        rw [hlist]

/-- C7: in Reporter connect(), there is no delay before attempt 1 and the
pre-attempt delay of attempt j+2 (the sleep after failed attempt j+1) is
min(30, j+1) seconds — equivalently attempt k is preceded by a delay of
min(30, k-1); the loop keeps retrying until an attempt succeeds (any fuel
bound at least the first succeeding attempt number k yields success, and
the k-1 recorded sleeps are min 30 1, ..., min 30 (k-1)); total_reconnects
is incremented exactly when the successful attempt number k exceeds 1. -/
theorem connect_backoff (succeeds : Nat → Bool) (k : Nat) (hk1 : 1 ≤ k)
    (hsucc : succeeds k = true)
    (hfail : ∀ j, j < k → 1 ≤ j → succeeds j = false) :
    ∀ fuel, k ≤ fuel →
      connect succeeds fuel =
        some (k, (List.range (k - 1)).map (fun j => min 30 (j + 1)),
          decide (1 < k)) := by
  intro fuel hfuel
  unfold connect
  rw [connect_go_spec succeeds k hsucc hfail fuel 0 (by omega) (by omega) hk1]
  norm_num

/-- Witness for C7: with attempts 1 and 2 failing and attempt 3 succeeding,
connect returns attempt 3 with sleeps [1, 2] (min 30 1 and min 30 2) and a
reconnect increment. -/
theorem connect_backoff_witness :
    (1 : Nat) ≤ 3 ∧
      (fun n => decide (n = 3)) 3 = true ∧
      connect (fun n => decide (n = 3)) 5 = some (3, [1, 2], true) := by
  refine ⟨by decide, by decide, ?_⟩
  have h := connect_backoff (fun n => decide (n = 3)) 3 (by decide) (by decide)
    (by decide) 5 (by decide)
  simpa using h

/-- A false hysteresis gate means the history holds a value inside the
window [t, t + H). -/
theorem gate_false_window {hist : History} {H : Int} {r : String} {t : Int}
    (h : should_update hist H r t = false) :
    ∃ v, hist r = some v ∧ t ≤ v ∧ v < t + H := by
  unfold should_update at h
  cases hh : hist r with
  | none =>
      rw [hh] at h
      simp at h
  | some v =>
      rw [hh] at h
      simp only [Bool.or_eq_false_iff, decide_eq_false_iff_not, not_lt, not_le] at h
      exact ⟨v, rfl, by omega, by omega⟩

/-- Conversely, a history value inside the window [t, t + H) makes the
hysteresis gate false. -/
theorem gate_false_of_window {hist : History} {H : Int} {r : String} {t : Int}
    (v : Int) (hh : hist r = some v) (h1 : t ≤ v) (h2 : v < t + H) :
    should_update hist H r t = false := by
  unfold should_update
  rw [hh]
  simp only [Bool.or_eq_false_iff, decide_eq_false_iff_not, not_lt, not_le]
  omega

/-- processFan leaves every history entry other than its fan's reference id
unchanged. -/
theorem processFan_untouched (cfg : FanControlConfig) (hist : History)
    (temps : String → Option Int) (fan : Fan) {r : String}
    (hr : r ≠ fan.referenceGpu) :
    (processFan cfg hist temps fan).1 r = hist r := by
  cases h : temps fan.referenceGpu with
  | none => simp [processFan, h]
  | some t =>
      simp only [processFan, h]
      split
      · simp [hr]
      · rfl

/-- After processFan, the fan's own reference entry lies inside the
hysteresis window of its reading (margin at least 1). -/
theorem processFan_window_self (cfg : FanControlConfig) (hist : History)
    (temps : String → Option Int) (fan : Fan) (hH : 1 ≤ cfg.HYSTERESIS) :
    Stable cfg.HYSTERESIS temps (processFan cfg hist temps fan).1
      fan.referenceGpu := by
  intro t ht
  cases hb : should_update hist cfg.HYSTERESIS fan.referenceGpu t with
  | true =>
      refine ⟨t, ?_, le_refl t, by omega⟩
      simp [processFan, ht, hb]
  | false =>
      obtain ⟨v, hv, h1, h2⟩ := gate_false_window hb
      refine ⟨v, ?_, h1, h2⟩
      simp [processFan, ht, hb, hv]

/-- processFan preserves the window invariant at every reference id. -/
theorem processFan_window_mono (cfg : FanControlConfig) (hist : History)
    (temps : String → Option Int) (fan : Fan) (hH : 1 ≤ cfg.HYSTERESIS)
    {r : String} (hr : Stable cfg.HYSTERESIS temps hist r) :
    Stable cfg.HYSTERESIS temps (processFan cfg hist temps fan).1 r := by
  by_cases he : r = fan.referenceGpu
  · subst he
    exact processFan_window_self cfg hist temps fan hH
  · intro t ht
    obtain ⟨v, hv, h1, h2⟩ := hr t ht
    exact ⟨v, by rw [processFan_untouched cfg hist temps fan he, hv], h1, h2⟩

/-- After a whole report pass, the window invariant holds at every
processed fan's reference id, and it is preserved wherever it already
held. -/
theorem processReport_window (cfg : FanControlConfig)
    (temps : String → Option Int) (hH : 1 ≤ cfg.HYSTERESIS) :
    ∀ (fans : List Fan) (hist : History),
      (∀ r, Stable cfg.HYSTERESIS temps hist r →
        Stable cfg.HYSTERESIS temps (processReport cfg fans hist temps).1 r) ∧
      (∀ fan, fan ∈ fans →
        Stable cfg.HYSTERESIS temps (processReport cfg fans hist temps).1
          fan.referenceGpu) := by
  intro fans
  induction fans with
  | nil =>
      intro hist
      exact ⟨fun r h => h, fun fan hf => absurd hf (List.not_mem_nil fan)⟩
  | cons fan rest ih =>
      intro hist
      refine ⟨?_, ?_⟩
      · intro r hr
        exact (ih (processFan cfg hist temps fan).1).1 r
          (processFan_window_mono cfg hist temps fan hH hr)
      · intro f hf
        rcases List.mem_cons.mp hf with rfl | hfr
        · exact (ih (processFan cfg hist temps f).1).1 f.referenceGpu
            (processFan_window_self cfg hist temps f hH)
        · exact (ih (processFan cfg hist temps fan).1).2 f hfr

/-- A report pass over a history already inside the hysteresis window of
every processed reference leaves the history unchanged and performs no pwm
write. -/
theorem processReport_no_write (cfg : FanControlConfig)
    (temps : String → Option Int) :
    ∀ (fans : List Fan) (hist : History),
      (∀ f, f ∈ fans → Stable cfg.HYSTERESIS temps hist f.referenceGpu) →
      (processReport cfg fans hist temps).1 = hist ∧
      pwmWriteCount (processReport cfg fans hist temps).2 = 0 := by
  intro fans
  induction fans with
  | nil =>
      intro hist _
      exact ⟨rfl, rfl⟩
  | cons fan rest ih =>
      intro hist hstab
      have hfan := hstab fan (List.mem_cons_self fan rest)
      have hstep : (processFan cfg hist temps fan).1 = hist ∧
          pwmWriteCount (processFan cfg hist temps fan).2 = 0 := by
        cases ht : temps fan.referenceGpu with
        | none => simp [processFan, ht, pwmWriteCount]
        | some t =>
            obtain ⟨v, hv, h1, h2⟩ := hfan t ht
            have hg := gate_false_of_window v hv h1 h2
            simp [processFan, ht, hg, pwmWriteCount, isPwmWrite]
      have hrest := ih (processFan cfg hist temps fan).1
        (by
          rw [hstep.1]
          exact fun f hf => hstab f (List.mem_cons_of_mem fan hf))
      refine ⟨?_, ?_⟩
      · calc (processReport cfg (fan :: rest) hist temps).1
            = (processReport cfg rest (processFan cfg hist temps fan).1 temps).1 :=
              rfl
          _ = (processFan cfg hist temps fan).1 := hrest.1
          _ = hist := hstep.1
      · show pwmWriteCount ((processFan cfg hist temps fan).2 ++
          (processReport cfg rest (processFan cfg hist temps fan).1 temps).2) = 0
        unfold pwmWriteCount at hstep hrest ⊢
        rw [List.countP_append]
        omega

/-- C9 (amended, margin at least 1): within one session, after a report
with non-null temperatures has been processed once, processing the
identical report any further number of times leaves the history at its
post-first-processing value and performs no additional pwm write — the
post-state is a fixed point, so every repetition (the n-th included)
writes nothing.  (With margin 0 this fails: see the counterexample, where
an unchanged temperature satisfies the falling-edge condition
temp + 0 <= last and is rewritten every cycle.) -/
theorem repeated_report_idempotent (cfg : FanControlConfig) (fans : List Fan)
    (hist : History) (temps : String → Option Int)
    (hH : 1 ≤ cfg.HYSTERESIS) :
    (processReport cfg fans (processReport cfg fans hist temps).1 temps).1 =
      (processReport cfg fans hist temps).1 ∧
    pwmWriteCount
      (processReport cfg fans (processReport cfg fans hist temps).1 temps).2 = 0 ∧
    (∀ n, (fun h => (processReport cfg fans h temps).1)^[n]
      (processReport cfg fans hist temps).1 =
        (processReport cfg fans hist temps).1) := by
  have hstab : ∀ f, f ∈ fans →
      Stable cfg.HYSTERESIS temps (processReport cfg fans hist temps).1
        f.referenceGpu :=
    fun f hf => (processReport_window cfg temps hH fans hist).2 f hf
  have hnw := processReport_no_write cfg temps fans
    (processReport cfg fans hist temps).1 hstab
  exact ⟨hnw.1, hnw.2, fun n => Function.iterate_fixed hnw.1 n⟩

/-- C9 counterexample: with hysteresis margin 0 (allowed by the
configuration surface), processing the identical single-reading report a
second time performs another pwm write — repeated identical reports are
not write-free after the first. -/
theorem zero_hysteresis_rewrites :
    pwmWriteCount ((processReport zeroHysteresisConfig [⟨"gpu0", "gpu0"⟩]
      ((processReport zeroHysteresisConfig [⟨"gpu0", "gpu0"⟩] emptyHistory
        reportGpu0).1) reportGpu0).2) = 1 := by
  decide

/-- Witness for C9 (amended) at the default margin 6000 with a single-fan
set and a single-reading report. -/
theorem repeated_report_idempotent_witness :
    (1 : Int) ≤ exampleConfig.HYSTERESIS ∧
      pwmWriteCount ((processReport exampleConfig [⟨"gpu0", "gpu0"⟩]
        ((processReport exampleConfig [⟨"gpu0", "gpu0"⟩] emptyHistory
          reportGpu0).1) reportGpu0).2) = 0 :=
  ⟨by decide,
    (repeated_report_idempotent exampleConfig [⟨"gpu0", "gpu0"⟩] emptyHistory
      reportGpu0 (by decide)).2.1⟩

end RemoteFancontrol
